import Mathlib

/-!
# URL shortener (`main.go`): embedding and verified properties

The three HTTP handlers of `main.go` and the key generator are embedded as pure
functions over an explicit world state.

* The `links` table is a list of rows; the table itself enforces nothing, so a
  list may hold several rows with one id. `INSERT` appends a row, `SELECT ...
  WHERE id = ?` reads the rows whose id equals the argument (the first one for
  `QueryRow`), `UPDATE ... WHERE id = ?` rewrites every such row.
* The random source is the stream of values that the coming `rand.Intn` calls
  draw from; `rand.Seed` only chooses the stream, so it has no model of its own.
* Every database call may fail. Which calls fail is an input of the handler
  (one flag per call site, one flag per iteration for the call inside the
  loop of `handleShorten`).
* `log.Fatal` ends the process: the handler's outcome is `fatal` and nothing is
  written to the client.
* A response is what the handler writes through its `http.ResponseWriter`: the
  message and status of `http.Error`, the `Location` header and status of
  `http.Redirect`, or the header `text/html` followed by `fmt.Fprint` of the page.
  The `Location` header is computed by `net/http` from the request path and the
  target; the handlers take that function as an input, and `httpLocation` below
  is a model of it for evaluating concrete requests.
* The retry loop of `handleShorten` has no bound in the source; here it runs on
  fuel and `none` stands for a loop that has not ended within the fuel.
-/

namespace UrlShortener

/-! ## Data model -/

/-- One row of the table `links(id, url, count)`. -/
structure Link where
  id : String
  url : String
  count : Nat
  deriving DecidableEq, Repr

/-- The stream of values the coming `rand.Intn` calls draw from. -/
abbrev Rand := Nat → Nat

/-- The state the handlers work on: the `links` table and the random source. -/
structure World where
  links : List Link
  rand : Rand

/-- The parts of `*http.Request` the handlers read. -/
structure Request where
  Method : String
  Path : String
  Form : String → List String

/-- Go `r.FormValue(key)`: the first value of the key in the parsed form, `""` when there is none. -/
def Request.FormValue (r : Request) (key : String) : String :=
  match r.Form key with
  | v :: _ => v
  | [] => ""

/-- What `net/http` makes of the target of an `http.Redirect` call: the `Location`
header it sends, computed by the library from the path of the request and the target.
The library is not part of the repository; the handlers take its function as an input. -/
abbrev Location := String → String → String

/-- What a handler writes to its `http.ResponseWriter`. -/
inductive Response where
  /-- The call `http.Error(w, msg, code)`. -/
  | error (msg : String) (code : Nat)
  /-- The answer of an `http.Redirect(w, r, url, code)` call: the `Location` header that
  `net/http` sends for the target `url`, and the status. -/
  | redirect (location : String) (code : Nat)
  /-- The header `Content-Type: text/html`, then `fmt.Fprint(w, ...)` of the page. -/
  | html (body : String)
  deriving DecidableEq, Repr

/-- How a handler call ends: it returns after answering, or `log.Fatal` ends the process. -/
inductive Outcome where
  | served (resp : Response) (w : World)
  | fatal (w : World)

/-- The world a handler call leaves behind. -/
def Outcome.world : Outcome → World
  | .served _ w => w
  | .fatal w => w

/-- The response of a handler call, if it answered. -/
def Outcome.response? : Outcome → Option Response
  | .served r _ => some r
  | .fatal _ => none

/-! ## Constants of `net/http` -/

def MethodPost : String := "POST"
def StatusFound : Nat := 302
def StatusSeeOther : Nat := 303
def StatusBadRequest : Nat := 400
def StatusNotFound : Nat := 404
def StatusMethodNotAllowed : Nat := 405

/-! ## Library calls -/

/-- Go `rand.Intn(n)`: the next draw, in `[0, n)`, and the source after it. -/
def Intn (g : Rand) (n : Nat) : Nat × Rand :=
  (g 0 % n, fun i => g (i + 1))

/-- Go `strings.TrimPrefix(s, p)`: `s` without the leading `p` if it has one, else `s`. -/
def TrimPrefix (s p : String) : String :=
  if p.data.isPrefixOf s.data then String.mk (s.data.drop p.data.length) else s

/-! ## Database calls on the table -/

/-- The query `SELECT count(1) as count FROM links WHERE id = ?`: the number of rows
with the id. -/
def selectCount (links : List Link) (key : String) : Nat :=
  (links.filter (fun l => l.id = key)).length

/-- The query `SELECT id, url, count FROM links WHERE id = ?` read with `QueryRow`: the first row, if any. -/
def selectRow (links : List Link) (key : String) : Option Link :=
  links.find? (fun l => l.id = key)

/-- Modelled from the spec: the column default of `count` in the table `links`, whose
schema is not part of the sources ("count defaulting to 0", "starts at 0"). -/
def countDefault : Nat := 0

/-- The statement `INSERT INTO links(id, url) VALUES(?, ?)`: one new row, `count` takes its default. -/
def insertLink (links : List Link) (key url : String) : List Link :=
  links ++ [{ id := key, url := url, count := countDefault }]

/-- The statement `UPDATE links SET count = count + 1 WHERE id = ?`: every row with the
id gets its count raised by one. -/
def updateCount (links : List Link) (key : String) : List Link :=
  links.map (fun l => if l.id = key then { l with count := l.count + 1 } else l)

/-! ## `generateShortKey` -/

def charset : String := "abcdefghijklmnopqrstuvwxyzABCDEFGHIJKLMNOPQRSTUVWXYZ0123456789"

def keyLength : Nat := 6

/-- The byte `charset[i]`; the index comes from `rand.Intn(len(charset))`, so it is in range. -/
def charsetAt (i : Nat) : Char :=
  charset.data.getD i (Char.ofNat 0)

/-- The loop `for i := range shortKey { shortKey[i] = charset[rand.Intn(len(charset))] }`
over the `n` positions still to fill. -/
def fillKey : Nat → Rand → List Char × Rand
  | 0, g => ([], g)
  | n + 1, g =>
    let d := Intn g charset.length
    let rest := fillKey n d.2
    (charsetAt d.1 :: rest.1, rest.2)

/-- The function `generateShortKey()`: the key and the random source after the call. -/
def generateShortKey (g : Rand) : String × Rand :=
  let filled := fillKey keyLength g
  (String.mk filled.1, filled.2)

/-! ## Handlers -/

def formPage : String :=
  "\n\t\t<!DOCTYPE html>\n\t\t<html>\n\t\t<head>\n\t\t\t<title>URL Shortener</title>\n\t\t</head>\n\t\t<body>\n\t\t\t<h2>URL Shortener</h2>\n\t\t\t<form method=\"post\" action=\"/shorten\">\n\t\t\t\t<input type=\"url\" name=\"url\" placeholder=\"Enter a URL\" required>\n\t\t\t\t<input type=\"submit\" value=\"Shorten\">\n\t\t\t</form>\n\t\t</body>\n\t\t</html>\n\t"

/-- The handler `handleForm`: a POST is sent on to `/shorten`, anything else gets the form. -/
def handleForm (location : Location) (r : Request) (w : World) : Outcome :=
  if r.Method = MethodPost then
    .served (.redirect (location r.Path "/shorten") StatusSeeOther) w
  else
    .served (.html formPage) w

/-- Which database calls of one `handleShorten` call fail: the existence query of the
`i`-th loop iteration, the `Prepare` of the insert, its `Exec`. -/
structure ShortenFaults where
  check : Nat → Bool
  prepare : Bool
  exec : Bool

/-- The loop of `handleShorten` that looks for an unused key. One iteration runs the
count query on the candidate; the error of `row.Scan` is dropped (`var _ = ...`), so on
a failed query `count` keeps its zero value. A count of 0 leaves the loop, otherwise a
new candidate is generated. -/
def uniqueKeyLoop (links : List Link) : Nat → (Nat → Bool) → String → Rand → Option (String × Rand)
  | 0, _, _, _ => none
  | fuel + 1, check, shortKey, g =>
    let count := if check 0 then 0 else selectCount links shortKey
    if count = 0 then
      some (shortKey, g)
    else
      let next := generateShortKey g
      uniqueKeyLoop links fuel (fun i => check (i + 1)) next.1 next.2

/-- The operands of the final `fmt.Fprint` of `handleShorten`, written one after another
(all operands are strings, so `Fprint` puts nothing between them). -/
def resultPage (originalURL shortenedURL : String) : String :=
  "\n\t\t<!DOCTYPE html>\n\t\t<html>\n\t\t<head>\n\t\t\t<title>URL Shortener</title>\n\t\t</head>\n\t\t<body>\n\t\t\t<h2>URL Shortener</h2>\n\t\t\t<p>Original URL: "
    ++ originalURL
    ++ "</p>\n\t\t\t<p>Shortened URL: <a href=\""
    ++ shortenedURL
    ++ "\">"
    ++ shortenedURL
    ++ "</a></p>\n\t\t</body>\n\t\t</html>\n\t"

/-- The call `fmt.Sprintf("%s/s/%s", website, shortKey)`. -/
def shortenedURL (website shortKey : String) : String :=
  website ++ "/s/" ++ shortKey

/-- The handler `handleShorten`; `website` is the value of `WEBSITE_URL`. The outcome is
`none` when the retry loop has not ended within the fuel. The second `if err != nil`
after the insert tests an error already known to be nil and has no outcome of its own. -/
def handleShorten (website : String) (faults : ShortenFaults) (fuel : Nat)
    (r : Request) (w : World) : Option Outcome :=
  if r.Method ≠ MethodPost then
    some (.served (.error "Invalid request method" StatusMethodNotAllowed) w)
  else
    let originalURL := r.FormValue "url"
    if originalURL = "" then
      some (.served (.error "URL parameter is missing" StatusBadRequest) w)
    else
      let first := generateShortKey w.rand
      match uniqueKeyLoop w.links fuel faults.check first.1 first.2 with
      | none => none
      | some (shortKey, g) =>
        let short := shortenedURL website shortKey
        if faults.prepare then
          some (.fatal { links := w.links, rand := g })
        else if faults.exec then
          some (.fatal { links := w.links, rand := g })
        else
          some (.served (.html (resultPage originalURL short))
            { links := insertLink w.links shortKey originalURL, rand := g })

/-- Which database calls of one `handleRedirect` call fail: the lookup (an error of
`row.Scan` other than `sql.ErrNoRows`), the `Prepare` of the update, its `Exec`. -/
structure RedirectFaults where
  lookup : Bool
  prepare : Bool
  exec : Bool

/-- The handler `handleRedirect`. A failed lookup is an error of `row.Scan` other than
`sql.ErrNoRows`; a lookup without a row is `sql.ErrNoRows`. -/
def handleRedirect (location : Location) (faults : RedirectFaults) (r : Request)
    (w : World) : Outcome :=
  let shortKey := TrimPrefix r.Path "/s/"
  if shortKey = "" then
    .served (.error "Shortened key is missing" StatusBadRequest) w
  else if faults.lookup then
    .fatal w
  else
    match selectRow w.links shortKey with
    | none => .served (.error "Shortened key not found" StatusNotFound) w
    | some row =>
      if faults.prepare then
        .fatal w
      else if faults.exec then
        .fatal w
      else
        .served (.redirect (location r.Path row.url) StatusFound)
          { links := updateCount w.links shortKey, rand := w.rand }

/-! ## A model of `http.Redirect` of the Go standard library

`http.Redirect(w, r, url, code)` parses `url` with `url.Parse`; when that succeeds with
an empty scheme and an empty host, a target that does not start with `/` is put behind
the directory of the request path, the part before the first `?` is cleaned with
`path.Clean` (a trailing slash is kept), and the query is put back. The `Location`
header is the result with every byte from `0x80` on written as `%` and two hex digits.
Strings are lists of characters; the bytes of a character are those of its UTF-8
encoding. -/

/-- Go `ishex`. -/
def isHex (c : Char) : Bool :=
  (48 ≤ c.toNat && c.toNat ≤ 57) || (97 ≤ c.toNat && c.toNat ≤ 102) ||
    (65 ≤ c.toNat && c.toNat ≤ 70)

/-- Whether `unescape` of `net/url` accepts the text in a mode other than the host
modes: every `%` is followed by two hex digits. -/
def escapesOk : List Char → Bool
  | [] => true
  | c :: rest =>
    if c = '%' then
      match rest with
      | a :: b :: rest2 => isHex a && isHex b && escapesOk rest2
      | _ => false
    else escapesOk rest

/-- The loop of `getScheme` of `net/url` at position `i`: `none` for the error
"missing protocol scheme", else the scheme and the rest. -/
def getSchemeLoop (raw : List Char) : Nat → List Char → Option (List Char × List Char)
  | _, [] => some ([], raw)
  | i, c :: cs =>
    if c.isAlpha then getSchemeLoop raw (i + 1) cs
    else if c.isDigit || c = '+' || c = '-' || c = '.' then
      if i = 0 then some ([], raw) else getSchemeLoop raw (i + 1) cs
    else if c = ':' then
      if i = 0 then none else some (raw.take i, cs)
    else some ([], raw)

/-- Go `validUserinfo` of `net/url`. -/
def validUserinfo (s : List Char) : Bool :=
  s.all (fun c => c.isAlphanum ||
    ['-', '.', '_', ':', '~', '!', '$', '&', Char.ofNat 39, '(', ')', '*', '+', ',', ';', '=',
      '%', '@'].contains c)

/-- Whether `parseAuthority` of `net/url` succeeds with an empty host: the text after
the last `@` is empty, and the user information before it, if any, is accepted. -/
def authorityHostEmpty (authority : List Char) : Bool :=
  authority = [] ||
    (authority.getLast? = some '@' && validUserinfo authority.dropLast &&
      escapesOk authority.dropLast)

/-- Whether `url.Parse(url)` succeeds with `Scheme == ""` and `Host == ""`, the test
`http.Redirect` makes before it rewrites the target. -/
def parsesRelative (url : List Char) : Bool :=
  let u := url.takeWhile (fun c => c != '#')
  let frag := (url.dropWhile (fun c => c != '#')).drop 1
  if u.any (fun c => c.toNat < 32 || c.toNat = 127) then false
  else
    match getSchemeLoop u 0 u with
    | none => false
    | some (scheme, rest0) =>
      if scheme ≠ [] then false
      else
        let rest := rest0.takeWhile (fun c => c != '?')
        if rest.head? ≠ some '/' ∧ (rest.takeWhile (fun c => c != '/')).contains ':' then false
        else
          let pathOk :=
            if ['/', '/'].isPrefixOf rest ∧ ¬ ['/', '/', '/'].isPrefixOf rest then
              authorityHostEmpty ((rest.drop 2).takeWhile (fun c => c != '/')) &&
                escapesOk ((rest.drop 2).dropWhile (fun c => c != '/'))
            else escapesOk rest
          pathOk && (frag = [] || escapesOk frag)

/-- The elements of a path between its slashes. -/
def splitSlash : List Char → List (List Char)
  | [] => [[]]
  | c :: cs =>
    match splitSlash cs with
    | [] => [[]]
    | seg :: rest => if c = '/' then [] :: seg :: rest else (c :: seg) :: rest

/-- One element of `path.Clean`: empty elements and `.` are dropped, `..` removes the
element before it, or stays when the path is not rooted and nothing can be removed.
The elements kept so far are held last one first. -/
def cleanStep (rooted : Bool) (kept : List (List Char)) (seg : List Char) : List (List Char) :=
  if seg = [] ∨ seg = ['.'] then kept
  else if seg = ['.', '.'] then
    match kept with
    | top :: below => if top = ['.', '.'] then seg :: kept else below
    | [] => if rooted then [] else [seg]
  else seg :: kept

/-- Go `path.Clean`. -/
def pathClean (path : List Char) : List Char :=
  if path = [] then ['.']
  else
    let rooted := path.head? = some '/'
    let kept := (splitSlash path).foldl (cleanStep rooted) []
    let body := ['/'].intercalate kept.reverse
    let out := if rooted then '/' :: body else body
    if out = [] then ['.'] else out

/-- The directory of `path.Split`: the path up to and with its last slash. -/
def pathDir (path : List Char) : List Char :=
  (path.reverse.dropWhile (fun c => c != '/')).reverse

/-- The target as `http.Redirect` rewrites it before it sets the header. -/
def redirectTarget (requestPath url : List Char) : List Char :=
  if parsesRelative url then
    let oldpath := if requestPath = [] then ['/'] else requestPath
    let joined := if url.head? ≠ some '/' then pathDir oldpath ++ url else url
    let path := joined.takeWhile (fun c => c != '?')
    let query := joined.dropWhile (fun c => c != '?')
    let cleaned := pathClean path
    let cleaned :=
      if path.getLast? = some '/' ∧ cleaned.getLast? ≠ some '/' then cleaned ++ ['/']
      else cleaned
    cleaned ++ query
  else url

/-- The bytes of the UTF-8 encoding of a character. -/
def utf8Bytes (c : Char) : List Nat :=
  let n := c.toNat
  if n < 128 then [n]
  else if n < 2048 then [192 + n / 64, 128 + n % 64]
  else if n < 65536 then [224 + n / 4096, 128 + n / 64 % 64, 128 + n % 64]
  else [240 + n / 262144, 128 + n / 4096 % 64, 128 + n / 64 % 64, 128 + n % 64]

/-- Go `hexEscapeNonASCII` of `net/http`. -/
def hexEscapeNonASCII (s : List Char) : List Char :=
  s.flatMap (fun c =>
    if c.toNat < 128 then [c]
    else (utf8Bytes c).flatMap (fun b => ['%', Nat.digitChar (b / 16), Nat.digitChar (b % 16)]))

/-- The `Location` header of `http.Redirect(w, r, url, code)` for a request with the
given path. -/
def httpLocation : Location :=
  fun requestPath url => String.mk (hexEscapeNonASCII (redirectTarget requestPath.data url.data))

/-- The world after `example.com` has been shortened on `sampleWorld` by a working
database. -/
def sampleSchemeless : World :=
  { links := [⟨"abcdef", "https://go.dev", 0⟩, ⟨"ghijkl", "example.com", 0⟩],
    rand := fun i => i + 12 }

/-! ## Definitions used to state the properties -/

/-- The characters the spec calls alphanumeric: `a`-`z`, `A`-`Z`, `0`-`9`. -/
def isAlnum (c : Char) : Bool :=
  (97 ≤ c.toNat && c.toNat ≤ 122) || (65 ≤ c.toNat && c.toNat ≤ 90) ||
    (48 ≤ c.toNat && c.toNat ≤ 57)

/-- A six-character alphanumeric string. -/
def IsShortKey (s : String) : Prop :=
  s.length = 6 ∧ ∀ c ∈ s.data, isAlnum c = true

instance (s : String) : Decidable (IsShortKey s) := by
  unfold IsShortKey
  infer_instance

/-- A random source whose first six draws are the given indices. -/
def indexSource (idx : Fin 6 → Fin 62) : Rand :=
  fun i => if h : i < 6 then (idx ⟨i, h⟩).val else 0

/-- The index that the `i`-th `rand.Intn(len(charset))` call of one `generateShortKey`
call returns on the source `g`. -/
def drawnIndex (g : Rand) (i : Nat) : Nat :=
  (Intn (fun j => g (j + i)) charset.length).1

/-- The key `generateShortKey` builds when `rand.Intn` returns the given six indices. -/
def keyOfIndices (idx : Fin 6 → Fin 62) : String :=
  (generateShortKey (indexSource idx)).1

/-- The key of the `n`-th `generateShortKey` call (counted from 0) on the source `g`. -/
def nthCandidate : Nat → Rand → String
  | 0, g => (generateShortKey g).1
  | n + 1, g => nthCandidate n (generateShortKey g).2

/-- The ids of the rows of the table. -/
def ids (links : List Link) : List String :=
  links.map Link.id

/-- No database call of a `handleShorten` call fails. -/
def shortenOk : ShortenFaults :=
  { check := fun _ => false, prepare := false, exec := false }

/-- No database call of a `handleRedirect` call fails. -/
def redirectOk : RedirectFaults :=
  { lookup := false, prepare := false, exec := false }

/-- A library function that sends every target as it is, used where a concrete request
is evaluated and the header plays no part. -/
def plainLocation : Location :=
  fun _ target => target

/-- A POST to `/shorten` that submits the given URL. -/
def postShorten (url : String) : Request :=
  { Method := "POST", Path := "/shorten", Form := fun key => if key = "url" then [url] else [] }

/-- A GET for the given path. -/
def getPath (path : String) : Request :=
  { Method := "GET", Path := path, Form := fun _ => [] }

/-- A table with one link under the key `abcdef`, and a random source whose draws are
0, 1, 2, ...: its first candidate key is `abcdef`, its second is `ghijkl`. -/
def sampleWorld : World :=
  { links := [⟨"abcdef", "https://go.dev", 0⟩], rand := fun i => i }

/-- The world after `https://example.com` has been shortened on `sampleWorld` by a
working database: the second candidate `ghijkl` was taken, twelve draws were used. -/
def sampleShortened : World :=
  { links := [⟨"abcdef", "https://go.dev", 0⟩, ⟨"ghijkl", "https://example.com", 0⟩],
    rand := fun i => i + 12 }

/-- The world after two visits of `/s/abcdef` on `sampleWorld`. -/
def sampleVisited : World :=
  { links := [⟨"abcdef", "https://go.dev", 2⟩], rand := fun i => i }

/-- The world after `https://example.com` has been shortened on `sampleWorld` while the
existence query failed: the first candidate `abcdef` was used and six draws were taken. -/
def sampleDuplicated : World :=
  { links := [⟨"abcdef", "https://go.dev", 0⟩, ⟨"abcdef", "https://example.com", 0⟩],
    rand := fun i => i + 6 }

/-- A `handleShorten` call whose existence queries all fail while the insert works. -/
def checksFail : ShortenFaults :=
  { check := fun _ => true, prepare := false, exec := false }

/-- Requests handled one after another by `handleRedirect`, each with its own database
behaviour and each answered with a redirect: the world after the last one, `none` when
some request is not answered with a redirect. -/
def redirectAll (location : Location) :
    List (RedirectFaults × Request) → World → Option World
  | [], w => some w
  | c :: rest, w =>
    match handleRedirect location c.1 c.2 w with
    | .served (.redirect _ _) w1 => redirectAll location rest w1
    | _ => none

/-- One request to the service, as `main` registers the handlers: the form at `/`, the
shorten endpoint, the redirect endpoint. -/
inductive Op where
  | form (r : Request)
  | shorten (website : String) (faults : ShortenFaults) (fuel : Nat) (r : Request)
  | redirect (faults : RedirectFaults) (r : Request)

/-- The handler call of a request. -/
def Op.run (location : Location) : Op → World → Option Outcome
  | .form r, w => some (handleForm location r w)
  | .shorten website faults fuel r, w => handleShorten website faults fuel r w
  | .redirect faults r, w => some (handleRedirect location faults r w)

/-- Every database call of the request succeeds. -/
def Op.queriesSucceed : Op → Prop
  | .form _ => True
  | .shorten _ faults _ _ =>
    (∀ i, faults.check i = false) ∧ faults.prepare = false ∧ faults.exec = false
  | .redirect faults _ =>
    faults.lookup = false ∧ faults.prepare = false ∧ faults.exec = false

/-! ## The key generator -/

theorem charset_length : charset.length = 62 := by decide

theorem charset_data_length : charset.data.length = 62 := by decide

theorem charset_nodup : charset.data.Nodup := by decide

theorem charsetAt_eq_getElem (i : Nat) (h : i < charset.data.length) :
    charsetAt i = charset.data[i] := by
  unfold charsetAt
  exact List.getD_eq_getElem _ _ h

theorem charsetAt_mem (i : Nat) (h : i < 62) : charsetAt i ∈ charset.data := by
  have h2 : i < charset.data.length := by rw [charset_data_length]; exact h
  rw [charsetAt_eq_getElem i h2]
  exact List.getElem_mem _

theorem charsetAt_inj (i j : Nat) (hi : i < 62) (hj : j < 62)
    (h : charsetAt i = charsetAt j) : i = j := by
  have hi2 : i < charset.data.length := by rw [charset_data_length]; exact hi
  have hj2 : j < charset.data.length := by rw [charset_data_length]; exact hj
  rw [charsetAt_eq_getElem i hi2, charsetAt_eq_getElem j hj2] at h
  exact (charset_nodup.getElem_inj_iff).1 h

theorem charsetAt_indexOf (c : Char) (h : c ∈ charset.data) :
    charsetAt (charset.data.indexOf c) = c := by
  have hlt : charset.data.indexOf c < charset.data.length := List.indexOf_lt_length.2 h
  rw [charsetAt_eq_getElem _ hlt]
  exact List.getElem_indexOf hlt

theorem indexOf_lt (c : Char) (h : c ∈ charset.data) : charset.data.indexOf c < 62 := by
  have hlt : charset.data.indexOf c < charset.data.length := List.indexOf_lt_length.2 h
  rwa [charset_data_length] at hlt

theorem isAlnum_of_mem : ∀ c ∈ charset.data, isAlnum c = true := by decide

theorem mem_of_isAlnum (c : Char) (h : isAlnum c = true) : c ∈ charset.data := by
  have hc : c = Char.ofNat c.toNat := (Char.ofNat_toNat c).symm
  have hb : (97 ≤ c.toNat ∧ c.toNat ≤ 122) ∨ (65 ≤ c.toNat ∧ c.toNat ≤ 90) ∨
      (48 ≤ c.toNat ∧ c.toNat ≤ 57) := by
    simpa [isAlnum, or_assoc] using h
  generalize c.toNat = n at hc hb
  subst hc
  rcases hb with ⟨h1, h2⟩ | ⟨h1, h2⟩ | ⟨h1, h2⟩ <;> interval_cases n <;> decide

theorem isAlnum_iff_mem (c : Char) : isAlnum c = true ↔ c ∈ charset.data :=
  ⟨mem_of_isAlnum c, isAlnum_of_mem c⟩

/-- The six draws of one `generateShortKey` call, unrolled. -/
theorem generateShortKey_eq (g : Rand) :
    generateShortKey g =
      (String.mk [charsetAt (g 0 % 62), charsetAt (g 1 % 62), charsetAt (g 2 % 62),
        charsetAt (g 3 % 62), charsetAt (g 4 % 62), charsetAt (g 5 % 62)],
       fun i => g (i + 6)) := rfl

theorem generateShortKey_isShortKey (g : Rand) : IsShortKey (generateShortKey g).1 := by
  rw [generateShortKey_eq]
  refine ⟨rfl, ?_⟩
  intro c hc
  simp only [List.mem_cons, List.mem_singleton, List.not_mem_nil, or_false] at hc
  rw [isAlnum_iff_mem]
  rcases hc with h | h | h | h | h | h <;> subst h <;>
    exact charsetAt_mem _ (Nat.mod_lt _ (by decide))

theorem generateShortKey_key_eq_iff (g g2 : Rand) :
    (generateShortKey g).1 = (generateShortKey g2).1 ↔ ∀ i, i < 6 → g i % 62 = g2 i % 62 := by
  rw [generateShortKey_eq, generateShortKey_eq]
  have hlt : ∀ n : Nat, n % 62 < 62 := fun n => Nat.mod_lt _ (by decide)
  constructor
  · intro h
    have hd := congrArg String.data h
    simp only [List.cons.injEq, and_true] at hd
    obtain ⟨h0, h1, h2, h3, h4, h5⟩ := hd
    intro i hi
    interval_cases i
    · exact charsetAt_inj _ _ (hlt _) (hlt _) h0
    · exact charsetAt_inj _ _ (hlt _) (hlt _) h1
    · exact charsetAt_inj _ _ (hlt _) (hlt _) h2
    · exact charsetAt_inj _ _ (hlt _) (hlt _) h3
    · exact charsetAt_inj _ _ (hlt _) (hlt _) h4
    · exact charsetAt_inj _ _ (hlt _) (hlt _) h5
  · intro h
    simp only [h 0 (by decide), h 1 (by decide), h 2 (by decide), h 3 (by decide),
      h 4 (by decide), h 5 (by decide)]

theorem keyOfIndices_injective : Function.Injective keyOfIndices := by
  intro a b h
  have h2 := (generateShortKey_key_eq_iff _ _).1 h
  funext i
  have h3 := h2 i.val i.isLt
  simp only [indexSource, i.isLt, dite_true, Fin.eta] at h3
  rw [Nat.mod_eq_of_lt (a i).isLt, Nat.mod_eq_of_lt (b i).isLt] at h3
  exact Fin.ext h3

theorem exists_indices_of_isShortKey (s : String) (h : IsShortKey s) :
    ∃ idx, keyOfIndices idx = s := by
  obtain ⟨hlen, hal⟩ := h
  obtain ⟨l⟩ := s
  simp only [String.length] at hlen
  have hmem : ∀ c ∈ l, c ∈ charset.data := fun c hc => mem_of_isAlnum c (hal c hc)
  match l, hlen, hmem with
  | [c0, c1, c2, c3, c4, c5], _, hmem =>
    have m0 := hmem c0 (by simp)
    have m1 := hmem c1 (by simp)
    have m2 := hmem c2 (by simp)
    have m3 := hmem c3 (by simp)
    have m4 := hmem c4 (by simp)
    have m5 := hmem c5 (by simp)
    refine ⟨fun i => match i with
      | ⟨0, _⟩ => ⟨charset.data.indexOf c0, indexOf_lt c0 m0⟩
      | ⟨1, _⟩ => ⟨charset.data.indexOf c1, indexOf_lt c1 m1⟩
      | ⟨2, _⟩ => ⟨charset.data.indexOf c2, indexOf_lt c2 m2⟩
      | ⟨3, _⟩ => ⟨charset.data.indexOf c3, indexOf_lt c3 m3⟩
      | ⟨4, _⟩ => ⟨charset.data.indexOf c4, indexOf_lt c4 m4⟩
      | ⟨5, _⟩ => ⟨charset.data.indexOf c5, indexOf_lt c5 m5⟩, ?_⟩
    unfold keyOfIndices
    rw [generateShortKey_eq]
    simp only [indexSource, Nat.lt_add_one, Nat.reduceLT, dite_true,
      Nat.mod_eq_of_lt (indexOf_lt c0 m0), Nat.mod_eq_of_lt (indexOf_lt c1 m1),
      Nat.mod_eq_of_lt (indexOf_lt c2 m2), Nat.mod_eq_of_lt (indexOf_lt c3 m3),
      Nat.mod_eq_of_lt (indexOf_lt c4 m4), Nat.mod_eq_of_lt (indexOf_lt c5 m5),
      charsetAt_indexOf c0 m0, charsetAt_indexOf c1 m1, charsetAt_indexOf c2 m2,
      charsetAt_indexOf c3 m3, charsetAt_indexOf c4 m4, charsetAt_indexOf c5 m5]

theorem keyOfIndices_data (idx : Fin 6 → Fin 62) :
    (keyOfIndices idx).data = [charsetAt (idx 0), charsetAt (idx 1), charsetAt (idx 2),
      charsetAt (idx 3), charsetAt (idx 4), charsetAt (idx 5)] := by
  unfold keyOfIndices
  rw [generateShortKey_eq]
  simp only [indexSource, Nat.lt_add_one, Nat.reduceLT, Nat.zero_lt_succ, dite_true,
    Nat.mod_eq_of_lt (idx _).isLt]
  rfl

theorem keyOfIndices_getElem? (idx : Fin 6 → Fin 62) (i : Fin 6) :
    (keyOfIndices idx).data[i.val]? = charset.data[(idx i).val]? := by
  have hc : ∀ j : Fin 62, some (charsetAt j) = charset.data[j.val]? := by
    intro j
    have hj : j.val < charset.data.length := by rw [charset_data_length]; exact j.isLt
    rw [charsetAt_eq_getElem _ hj, List.getElem?_eq_getElem hj]
  rw [keyOfIndices_data]
  fin_cases i <;> exact hc _

theorem generateShortKey_eq_keyOfIndices (g : Rand) (idx : Fin 6 → Fin 62)
    (h : ∀ i : Fin 6, drawnIndex g i = idx i) : (generateShortKey g).1 = keyOfIndices idx := by
  unfold keyOfIndices
  rw [generateShortKey_key_eq_iff]
  intro i hi
  have h2 := h ⟨i, hi⟩
  simp only [drawnIndex, Intn, Nat.zero_add, charset_length] at h2
  simp only [indexSource, hi, dite_true, h2, Nat.mod_eq_of_lt (idx _).isLt]

theorem isShortKey_iff_exists_indices (s : String) :
    IsShortKey s ↔ ∃ idx, keyOfIndices idx = s := by
  constructor
  · exact exists_indices_of_isShortKey s
  · rintro ⟨idx, rfl⟩
    exact generateShortKey_isShortKey _

theorem card_indices_of_key (s : String) (h : IsShortKey s) :
    (Finset.univ.filter (fun idx : Fin 6 → Fin 62 => keyOfIndices idx = s)).card = 1 := by
  obtain ⟨idx, hidx⟩ := exists_indices_of_isShortKey s h
  rw [Finset.card_eq_one]
  refine ⟨idx, ?_⟩
  ext a
  simp only [Finset.mem_filter, Finset.mem_univ, true_and, Finset.mem_singleton]
  constructor
  · intro ha
    exact keyOfIndices_injective (ha.trans hidx.symm)
  · rintro rfl
    exact hidx

/-! ## The table -/

theorem selectCount_eq_zero_iff (links : List Link) (key : String) :
    selectCount links key = 0 ↔ key ∉ ids links := by
  unfold selectCount ids
  rw [List.length_eq_zero, List.filter_eq_nil_iff]
  simp only [decide_eq_true_eq, List.mem_map, not_exists, not_and]

theorem selectRow_eq_none_iff (links : List Link) (key : String) :
    selectRow links key = none ↔ key ∉ ids links := by
  unfold selectRow ids
  rw [List.find?_eq_none]
  simp only [decide_eq_true_eq, List.mem_map, not_exists, not_and]

theorem selectRow_insertLink_of_not_mem (links : List Link) (key url : String)
    (h : key ∉ ids links) :
    selectRow (insertLink links key url) key = some ⟨key, url, countDefault⟩ := by
  have hnone := (selectRow_eq_none_iff links key).2 h
  unfold selectRow at hnone
  unfold selectRow insertLink
  rw [List.find?_append, hnone]
  simp

theorem ids_insertLink (links : List Link) (key url : String) :
    ids (insertLink links key url) = ids links ++ [key] := by
  simp [ids, insertLink]

theorem ids_updateCount (links : List Link) (key : String) :
    ids (updateCount links key) = ids links := by
  unfold ids updateCount
  rw [List.map_map]
  apply List.map_congr_left
  intro l _
  simp only [Function.comp]
  split <;> rfl

/-! ## The retry loop of `handleShorten` -/

theorem uniqueKeyLoop_succ (links : List Link) (fuel : Nat) (check : Nat → Bool)
    (k : String) (g : Rand) :
    uniqueKeyLoop links (fuel + 1) check k g =
      if check 0 = true ∨ selectCount links k = 0 then some (k, g)
      else uniqueKeyLoop links fuel (fun i => check (i + 1))
        (generateShortKey g).1 (generateShortKey g).2 := by
  simp only [uniqueKeyLoop]
  by_cases hc : check 0 = true
  · simp [hc]
  · simp [hc]

theorem uniqueKeyLoop_mono (links : List Link) (fuel : Nat) :
    ∀ (check : Nat → Bool) (k : String) (g : Rand) (res : String × Rand),
      uniqueKeyLoop links fuel check k g = some res →
      ∀ d, uniqueKeyLoop links (fuel + d) check k g = some res := by
  induction fuel with
  | zero =>
    intro check k g res h
    simp [uniqueKeyLoop] at h
  | succ n ih =>
    intro check k g res h d
    rw [Nat.add_right_comm, uniqueKeyLoop_succ]
    rw [uniqueKeyLoop_succ] at h
    by_cases hc : check 0 = true ∨ selectCount links k = 0
    · rw [if_pos hc] at h ⊢
      exact h
    · rw [if_neg hc] at h ⊢
      exact ih _ _ _ _ h d

theorem uniqueKeyLoop_isShortKey (links : List Link) (fuel : Nat) :
    ∀ (check : Nat → Bool) (k : String) (g : Rand) (res : String × Rand),
      IsShortKey k → uniqueKeyLoop links fuel check k g = some res → IsShortKey res.1 := by
  induction fuel with
  | zero =>
    intro check k g res _ h
    simp [uniqueKeyLoop] at h
  | succ n ih =>
    intro check k g res hk h
    rw [uniqueKeyLoop_succ] at h
    by_cases hc : check 0 = true ∨ selectCount links k = 0
    · rw [if_pos hc] at h
      cases h
      exact hk
    · rw [if_neg hc] at h
      exact ih _ _ _ _ (generateShortKey_isShortKey g) h

theorem uniqueKeyLoop_free (links : List Link) (fuel : Nat) :
    ∀ (check : Nat → Bool) (k : String) (g : Rand) (res : String × Rand),
      (∀ i, check i = false) → uniqueKeyLoop links fuel check k g = some res →
      selectCount links res.1 = 0 := by
  induction fuel with
  | zero =>
    intro check k g res _ h
    simp [uniqueKeyLoop] at h
  | succ n ih =>
    intro check k g res hc h
    rw [uniqueKeyLoop_succ] at h
    by_cases h0 : check 0 = true ∨ selectCount links k = 0
    · rw [if_pos h0] at h
      cases h
      rcases h0 with h0 | h0
      · rw [hc 0] at h0
        cases h0
      · exact h0
    · rw [if_neg h0] at h
      exact ih _ _ _ _ (fun i => hc (i + 1)) h

theorem uniqueKeyLoop_ends (links : List Link) (n : Nat) :
    ∀ (check : Nat → Bool) (g : Rand),
      selectCount links (nthCandidate n g) = 0 →
      ∃ res, uniqueKeyLoop links (n + 1) check (generateShortKey g).1 (generateShortKey g).2
        = some res := by
  induction n with
  | zero =>
    intro check g h
    simp only [nthCandidate] at h
    refine ⟨((generateShortKey g).1, (generateShortKey g).2), ?_⟩
    rw [uniqueKeyLoop_succ, if_pos (Or.inr h)]
  | succ n ih =>
    intro check g h
    simp only [nthCandidate] at h
    rw [uniqueKeyLoop_succ]
    by_cases h0 : check 0 = true ∨ selectCount links (generateShortKey g).1 = 0
    · rw [if_pos h0]
      exact ⟨_, rfl⟩
    · rw [if_neg h0]
      exact ih _ _ h

/-- A failed existence query ends the loop with the candidate at hand. -/
theorem uniqueKeyLoop_check_fails (links : List Link) (fuel : Nat) (check : Nat → Bool)
    (k : String) (g : Rand) (h : check 0 = true) :
    uniqueKeyLoop links (fuel + 1) check k g = some (k, g) := by
  simp [uniqueKeyLoop, h]

/-! ## `handleShorten` after its two input checks -/

theorem handleShorten_post (website : String) (faults : ShortenFaults) (fuel : Nat)
    (r : Request) (w : World) (hm : r.Method = MethodPost) (hu : r.FormValue "url" ≠ "") :
    handleShorten website faults fuel r w =
      match uniqueKeyLoop w.links fuel faults.check (generateShortKey w.rand).1
          (generateShortKey w.rand).2 with
      | none => none
      | some (shortKey, g) =>
        if faults.prepare then
          some (.fatal { links := w.links, rand := g })
        else if faults.exec then
          some (.fatal { links := w.links, rand := g })
        else
          some (.served (.html (resultPage (r.FormValue "url") (shortenedURL website shortKey)))
            { links := insertLink w.links shortKey (r.FormValue "url"), rand := g }) := by
  unfold handleShorten
  simp only [ne_eq, hm, not_true_eq_false, if_false, hu]

/-! ## Key extraction of `handleRedirect` -/

theorem TrimPrefix_append (p k : String) : TrimPrefix (p ++ k) p = k := by
  unfold TrimPrefix
  have hp : p.data.isPrefixOf (p ++ k).data = true := by
    rw [List.isPrefixOf_iff_prefix, String.data_append]
    exact List.prefix_append _ _
  rw [if_pos hp, String.data_append, List.drop_left]

theorem handleRedirect_key (location : Location) (faults : RedirectFaults) (r : Request) (w : World) (k : String)
    (hp : r.Path = "/s/" ++ k) (hk : k ≠ "") :
    handleRedirect location faults r w =
      if faults.lookup then .fatal w
      else match selectRow w.links k with
        | none => .served (.error "Shortened key not found" 404) w
        | some row =>
          if faults.prepare then .fatal w
          else if faults.exec then .fatal w
          else .served (.redirect (location r.Path row.url) 302)
            { links := updateCount w.links k, rand := w.rand } := by
  unfold handleRedirect
  simp only [hp, TrimPrefix_append, hk, if_false]
  rfl

theorem handleRedirect_empty_key (location : Location) (faults : RedirectFaults) (r : Request) (w : World)
    (hp : r.Path = "/s/") :
    handleRedirect location faults r w = .served (.error "Shortened key is missing" 400) w := by
  have hpath : r.Path = "/s/" ++ "" := by rw [hp]; rfl
  unfold handleRedirect
  simp only [hpath, TrimPrefix_append, if_true]
  rfl

/-! ## The two input checks of `handleShorten` -/

theorem handleShorten_not_post (website : String) (faults : ShortenFaults) (fuel : Nat)
    (r : Request) (w : World) (hm : r.Method ≠ MethodPost) :
    handleShorten website faults fuel r w =
      some (.served (.error "Invalid request method" 405) w) := by
  unfold handleShorten
  rw [if_pos hm]
  rfl

theorem handleShorten_no_url (website : String) (faults : ShortenFaults) (fuel : Nat)
    (r : Request) (w : World) (hm : r.Method = MethodPost) (hu : r.FormValue "url" = "") :
    handleShorten website faults fuel r w =
      some (.served (.error "URL parameter is missing" 400) w) := by
  unfold handleShorten
  simp only [ne_eq, hm, not_true_eq_false, if_false, hu, if_true]
  rfl

/-! ## Claims on the error paths -/

/-- C7: `handleShorten` answers a request that is not a POST with 405 and a POST whose
`url` form value is empty or missing with 400; in both cases the world is returned as it
was (no row written, no draw taken from the random source). It answers with an error
response exactly when the method is not POST or the `url` value is empty or missing. -/
theorem handleShorten_client_errors (website : String) (faults : ShortenFaults) (fuel : Nat)
    (r : Request) (w : World) :
    (r.Method ≠ MethodPost →
      handleShorten website faults fuel r w =
        some (.served (.error "Invalid request method" 405) w)) ∧
    (r.Method = MethodPost → r.FormValue "url" = "" →
      handleShorten website faults fuel r w =
        some (.served (.error "URL parameter is missing" 400) w)) ∧
    ((∃ msg code w1, handleShorten website faults fuel r w = some (.served (.error msg code) w1))
      ↔ (r.Method ≠ MethodPost ∨ r.FormValue "url" = "")) ∧
    (r.FormValue "url" = "" ↔ (r.Form "url" = [] ∨ ∃ rest, r.Form "url" = "" :: rest)) := by
  have hA := handleShorten_not_post website faults fuel r w
  have hB := handleShorten_no_url website faults fuel r w
  refine ⟨hA, hB, ⟨?_, ?_⟩, ?_⟩
  · rintro ⟨msg, code, w1, h⟩
    by_contra hcon
    rw [not_or, not_not] at hcon
    rw [handleShorten_post website faults fuel r w hcon.1 hcon.2] at h
    split at h
    · cases h
    · split at h
      · cases h
      · split at h <;> cases h
  · intro h
    by_cases hm : r.Method = MethodPost
    · rcases h with h | h
      · exact absurd hm h
      · exact ⟨_, _, _, hB hm h⟩
    · exact ⟨_, _, _, hA hm⟩
  · unfold Request.FormValue
    cases hf : r.Form "url" with
    | nil => simp
    | cons v rest => simp

/-- The 405 answer of C7 on a concrete GET request. -/
theorem handleShorten_client_errors_witness :
    handleShorten "http://localhost:3030" shortenOk 0
        ⟨"GET", "/shorten", fun _ => ["https://example.com"]⟩ ⟨[], fun i => i⟩ =
      some (.served (.error "Invalid request method" 405) ⟨[], fun i => i⟩) :=
  (handleShorten_client_errors "http://localhost:3030" shortenOk 0
    ⟨"GET", "/shorten", fun _ => ["https://example.com"]⟩ ⟨[], fun i => i⟩).1 (by decide)

/-- C8: for a path `"/s/" ++ k` the key `handleRedirect` works with is `k`: stripping the
prefix `"/s/"` once gives back `k`, and for a non-empty `k` the lookup and the update are
made with `k`. For the path `"/s/"` the answer is 400 "Shortened key is missing" with the
world unchanged, whatever the database would have done (no call reaches it). -/
theorem handleRedirect_key_extraction (location : Location) (faults : RedirectFaults) (r : Request) (w : World)
    (k : String) (hp : r.Path = "/s/" ++ k) :
    TrimPrefix r.Path "/s/" = k ∧
    (k ≠ "" →
      handleRedirect location faults r w =
        if faults.lookup then .fatal w
        else match selectRow w.links k with
          | none => .served (.error "Shortened key not found" 404) w
          | some row =>
            if faults.prepare then .fatal w
            else if faults.exec then .fatal w
            else .served (.redirect (location r.Path row.url) 302)
              { links := updateCount w.links k, rand := w.rand }) ∧
    (k = "" →
      handleRedirect location faults r w = .served (.error "Shortened key is missing" 400) w) := by
  refine ⟨?_, ?_, ?_⟩
  · rw [hp, TrimPrefix_append]
  · intro hk
    exact handleRedirect_key location faults r w k hp hk
  · intro hk
    subst hk
    exact handleRedirect_empty_key location faults r w hp

/-- C8 on the path `/s//s/ab`: the prefix is stripped once, the key is `/s/ab`. -/
theorem handleRedirect_key_extraction_witness :
    "/s//s/ab" = "/s/" ++ "/s/ab" ∧ TrimPrefix "/s//s/ab" "/s/" = "/s/ab" :=
  ⟨by decide,
    (handleRedirect_key_extraction plainLocation redirectOk ⟨"GET", "/s//s/ab", fun _ => []⟩
      ⟨[], fun i => i⟩ "/s/ab" (by decide)).1⟩

/-- C5: when the lookup query is answered and no row has the non-empty key `k`, a
request for `/s/k` gets 404 "Shortened key not found"; the answer is not a redirect and
the world (table and random source) is the one before the request. -/
theorem handleRedirect_unknown_key (location : Location) (faults : RedirectFaults) (r : Request) (w : World)
    (k : String) (hp : r.Path = "/s/" ++ k) (hk : k ≠ "") (hnew : k ∉ ids w.links)
    (hdb : faults.lookup = false) :
    handleRedirect location faults r w = .served (.error "Shortened key not found" 404) w := by
  rw [handleRedirect_key location faults r w k hp hk, hdb, (selectRow_eq_none_iff w.links k).2 hnew]
  rfl

/-- C5 on a table that holds `abcdef` and a request for `/s/XXXXXX`. -/
theorem handleRedirect_unknown_key_witness :
    handleRedirect plainLocation redirectOk ⟨"GET", "/s/XXXXXX", fun _ => []⟩
        ⟨[⟨"abcdef", "https://example.com", 3⟩], fun i => i⟩ =
      .served (.error "Shortened key not found" 404)
        ⟨[⟨"abcdef", "https://example.com", 3⟩], fun i => i⟩ :=
  handleRedirect_unknown_key plainLocation redirectOk ⟨"GET", "/s/XXXXXX", fun _ => []⟩
    ⟨[⟨"abcdef", "https://example.com", 3⟩], fun i => i⟩ "XXXXXX" (by decide) (by decide)
    (by decide) rfl

/-! ## The successful path of `handleShorten` -/

theorem handleShorten_served (website : String) (faults : ShortenFaults) (fuel : Nat)
    (r : Request) (w : World) (resp : Response) (w1 : World)
    (hm : r.Method = MethodPost) (hu : r.FormValue "url" ≠ "")
    (h : handleShorten website faults fuel r w = some (.served resp w1)) :
    ∃ k g, uniqueKeyLoop w.links fuel faults.check (generateShortKey w.rand).1
          (generateShortKey w.rand).2 = some (k, g) ∧
      faults.prepare = false ∧ faults.exec = false ∧
      resp = .html (resultPage (r.FormValue "url") (shortenedURL website k)) ∧
      w1 = { links := insertLink w.links k (r.FormValue "url"), rand := g } := by
  rw [handleShorten_post website faults fuel r w hm hu] at h
  split at h
  · cases h
  · rename_i k g hloop
    by_cases hp : faults.prepare = true
    · rw [if_pos hp] at h
      cases h
    · rw [if_neg hp] at h
      by_cases he : faults.exec = true
      · rw [if_pos he] at h
        cases h
      · rw [if_neg he] at h
        cases h
        exact ⟨k, g, hloop, by simpa using hp, by simpa using he, rfl, rfl⟩

theorem handleShorten_html_post (website : String) (faults : ShortenFaults) (fuel : Nat)
    (r : Request) (w : World) (body : String) (w1 : World)
    (h : handleShorten website faults fuel r w = some (.served (.html body) w1)) :
    r.Method = MethodPost ∧ r.FormValue "url" ≠ "" := by
  by_cases hm : r.Method = MethodPost
  · refine ⟨hm, ?_⟩
    intro hu
    unfold handleShorten at h
    simp only [ne_eq, hm, not_true_eq_false, if_false, hu, if_true] at h
    cases h
  · exfalso
    unfold handleShorten at h
    rw [if_pos hm] at h
    cases h

theorem handleShorten_succeeds (website : String) (faults : ShortenFaults)
    (r : Request) (w : World) (hm : r.Method = MethodPost) (hu : r.FormValue "url" ≠ "")
    (hp : faults.prepare = false) (he : faults.exec = false) (n : Nat)
    (hfree : selectCount w.links (nthCandidate n w.rand) = 0) :
    ∃ k g, ∀ fuel, n + 1 ≤ fuel →
      handleShorten website faults fuel r w =
        some (.served (.html (resultPage (r.FormValue "url") (shortenedURL website k)))
          { links := insertLink w.links k (r.FormValue "url"), rand := g }) := by
  obtain ⟨⟨k, g⟩, hres⟩ := uniqueKeyLoop_ends w.links n faults.check w.rand hfree
  refine ⟨k, g, ?_⟩
  intro fuel hfuel
  obtain ⟨d, rfl⟩ := Nat.exists_eq_add_of_le hfuel
  rw [handleShorten_post website faults _ r w hm hu,
    uniqueKeyLoop_mono w.links (n + 1) _ _ _ _ hres d]
  simp only [hp, he, Bool.false_eq_true, if_false]

/-- On a database whose existence queries are answered and a random source whose
`n`-th candidate is free, a POST to `/shorten` with the non-empty URL `u`: with a working
insert the handler answers with the result page for every fuel above `n`; and whenever
it answers with a page, the table is the old table followed by exactly one new row, whose
key is six alphanumeric characters and was the id of no row before, whose URL is `u` and
whose count is 0. -/
theorem handleShorten_postcondition (website : String) (faults : ShortenFaults)
    (r : Request) (w : World) (u : String)
    (hm : r.Method = MethodPost) (hu : r.FormValue "url" = u) (hne : u ≠ "")
    (hcheck : ∀ i, faults.check i = false)
    (hfree : ∃ n, nthCandidate n w.rand ∉ ids w.links) :
    (faults.prepare = false → faults.exec = false →
      ∃ fuel0 body w1, ∀ fuel, fuel0 ≤ fuel →
        handleShorten website faults fuel r w = some (.served (.html body) w1)) ∧
    (∀ fuel body w1,
      handleShorten website faults fuel r w = some (.served (.html body) w1) →
      ∃ k, IsShortKey k ∧ k ∉ ids w.links ∧ w1.links = w.links ++ [⟨k, u, 0⟩]) := by
  subst hu
  constructor
  · intro hp he
    obtain ⟨n, hn⟩ := hfree
    obtain ⟨k, g, h⟩ := handleShorten_succeeds website faults r w hm hne hp he n
      ((selectCount_eq_zero_iff _ _).2 hn)
    exact ⟨n + 1, _, _, h⟩
  · intro fuel body w1 h
    obtain ⟨k, g, hloop, _, _, _, hw⟩ :=
      handleShorten_served website faults fuel r w _ w1 hm hne h
    refine ⟨k, ?_, ?_, ?_⟩
    · exact uniqueKeyLoop_isShortKey _ _ _ _ _ _ (generateShortKey_isShortKey _) hloop
    · exact (selectCount_eq_zero_iff _ _).1 (uniqueKeyLoop_free _ _ _ _ _ _ hcheck hloop)
    · rw [hw]
      rfl

/-- C2 at the failing input: the table holds the key `abcdef`, the first candidate is
`abcdef`, the existence query returns an error and the insert works. The POST succeeds
and adds the row `(abcdef, https://example.com, 0)`: the key of the new row was present
in the table before the call, and the table now holds two rows with one id. -/
theorem handleShorten_inserts_present_key :
    (postShorten "https://example.com").Method = MethodPost ∧
    (postShorten "https://example.com").FormValue "url" = "https://example.com" ∧
    checksFail.check 0 = true ∧
    "abcdef" ∈ ids sampleWorld.links ∧
    handleShorten "http://localhost:3030" checksFail 1 (postShorten "https://example.com")
        sampleWorld =
      some (.served
        (.html (resultPage "https://example.com" "http://localhost:3030/s/abcdef"))
        sampleDuplicated) ∧
    sampleDuplicated.links = sampleWorld.links ++ [⟨"abcdef", "https://example.com", 0⟩] ∧
    ¬ (ids sampleDuplicated.links).Nodup :=
  ⟨rfl, rfl, rfl, by decide, rfl, rfl, by decide⟩

theorem append_seven_mid (a u b x c d : String) :
    a ++ u ++ b ++ x ++ c ++ x ++ d = (a ++ u ++ b) ++ x ++ (c ++ x ++ d) := by
  simp only [String.append_assoc]

theorem append_seven_fst (a u b x c d : String) :
    a ++ u ++ b ++ x ++ c ++ x ++ d = a ++ u ++ (b ++ x ++ c ++ x ++ d) := by
  simp only [String.append_assoc]

/-- C3: the answer of `handleShorten` to a POST with the non-empty URL `u`. With a free
`n`-th candidate and a working insert the handler answers for every fuel above `n`; and
whenever it answers, the answer is the result page, a row `(k, u, 0)` with a
six-character alphanumeric key `k` has been appended, and the page holds
`website ++ "/s/" ++ k` and `u` itself, character for character. -/
theorem handleShorten_page (website : String) (faults : ShortenFaults)
    (r : Request) (w : World) (u : String)
    (hm : r.Method = MethodPost) (hu : r.FormValue "url" = u) (hne : u ≠ "") :
    (∀ n, nthCandidate n w.rand ∉ ids w.links → faults.prepare = false →
      faults.exec = false →
      ∃ resp w1, ∀ fuel, n + 1 ≤ fuel →
        handleShorten website faults fuel r w = some (.served resp w1)) ∧
    (∀ fuel resp w1, handleShorten website faults fuel r w = some (.served resp w1) →
      ∃ k, IsShortKey k ∧ w1.links = w.links ++ [⟨k, u, 0⟩] ∧
        resp = .html (resultPage u (website ++ "/s/" ++ k)) ∧
        (∃ pre post, resultPage u (website ++ "/s/" ++ k)
          = pre ++ (website ++ "/s/" ++ k) ++ post) ∧
        (∃ pre post, resultPage u (website ++ "/s/" ++ k) = pre ++ u ++ post)) := by
  subst hu
  constructor
  · intro n hn hp he
    obtain ⟨k, g, h⟩ := handleShorten_succeeds website faults r w hm hne hp he n
      ((selectCount_eq_zero_iff _ _).2 hn)
    exact ⟨_, _, h⟩
  · intro fuel resp w1 h
    obtain ⟨k, g, hloop, _, _, hresp, hw⟩ :=
      handleShorten_served website faults fuel r w resp w1 hm hne h
    refine ⟨k, ?_, ?_, hresp, ?_, ?_⟩
    · exact uniqueKeyLoop_isShortKey _ _ _ _ _ _ (generateShortKey_isShortKey _) hloop
    · rw [hw]
      rfl
    · exact ⟨_, _, append_seven_mid _ _ _ _ _ _⟩
    · exact ⟨_, _, append_seven_fst _ _ _ _ _ _⟩

/-- C3 on `sampleWorld` with `WEBSITE_URL = http://localhost:3030`. -/
theorem handleShorten_page_witness :
    handleShorten "http://localhost:3030" shortenOk 2 (postShorten "https://example.com")
        sampleWorld =
      some (.served
        (.html (resultPage "https://example.com" "http://localhost:3030/s/ghijkl"))
        sampleShortened) ∧
    ∃ k, IsShortKey k ∧
      sampleShortened.links = sampleWorld.links ++ [⟨k, "https://example.com", 0⟩] ∧
      Response.html (resultPage "https://example.com" "http://localhost:3030/s/ghijkl") =
        .html (resultPage "https://example.com" ("http://localhost:3030" ++ "/s/" ++ k)) ∧
      (∃ pre post, resultPage "https://example.com" ("http://localhost:3030" ++ "/s/" ++ k)
        = pre ++ ("http://localhost:3030" ++ "/s/" ++ k) ++ post) ∧
      (∃ pre post, resultPage "https://example.com" ("http://localhost:3030" ++ "/s/" ++ k)
        = pre ++ "https://example.com" ++ post) :=
  ⟨rfl, (handleShorten_page "http://localhost:3030" shortenOk
    (postShorten "https://example.com") sampleWorld "https://example.com"
    (by decide) (by decide) (by decide)).2 2 _ _ rfl⟩

/-! ## Shorten, then redirect -/

theorem isShortKey_ne_empty (k : String) (h : IsShortKey k) : k ≠ "" := by
  intro hk
  subst hk
  exact absurd h.1 (by decide)

/-- On a database whose existence queries are answered, if a POST to `/shorten` with
URL `u` is answered with the result page, then it has appended a row under some key `k`,
and for a request for the path `"/s/" ++ k` that follows (database working) the handler
hands `u` to `http.Redirect` with status 302: the answer carries the `Location` that the
library makes of `u`. With a free `n`-th candidate and a working insert the POST is
answered for every fuel above `n`. -/
theorem shorten_redirect_roundtrip (location : Location) (website : String) (faults : ShortenFaults)
    (r : Request) (w : World) (u : String)
    (hu : r.FormValue "url" = u) (hcheck : ∀ i, faults.check i = false) :
    (r.Method = MethodPost → u ≠ "" → faults.prepare = false → faults.exec = false →
      ∀ n, nthCandidate n w.rand ∉ ids w.links →
        ∃ body w1, ∀ fuel, n + 1 ≤ fuel →
          handleShorten website faults fuel r w = some (.served (.html body) w1)) ∧
    (∀ fuel body w1,
      handleShorten website faults fuel r w = some (.served (.html body) w1) →
      ∃ k, w1.links = w.links ++ [⟨k, u, 0⟩] ∧
        ∀ r2 : Request, r2.Path = "/s/" ++ k →
          ∃ w2, handleRedirect location redirectOk r2 w1 = .served (.redirect (location r2.Path u) 302) w2) := by
  subst hu
  constructor
  · intro hm hne hp he n hn
    obtain ⟨k, g, h⟩ := handleShorten_succeeds website faults r w hm hne hp he n
      ((selectCount_eq_zero_iff _ _).2 hn)
    exact ⟨_, _, h⟩
  · intro fuel body w1 h
    obtain ⟨hm, hne⟩ := handleShorten_html_post website faults fuel r w body w1 h
    obtain ⟨k, g, hloop, _, _, _, hw⟩ :=
      handleShorten_served website faults fuel r w _ w1 hm hne h
    have hkey : IsShortKey k :=
      uniqueKeyLoop_isShortKey _ _ _ _ _ _ (generateShortKey_isShortKey _) hloop
    have hfree : k ∉ ids w.links :=
      (selectCount_eq_zero_iff _ _).1 (uniqueKeyLoop_free _ _ _ _ _ _ hcheck hloop)
    refine ⟨k, by rw [hw]; rfl, ?_⟩
    intro r2 hp
    refine ⟨{ links := updateCount w1.links k, rand := w1.rand }, ?_⟩
    rw [handleRedirect_key location redirectOk r2 w1 k hp (isShortKey_ne_empty k hkey), hw]
    simp only [redirectOk, Bool.false_eq_true, if_false,
      selectRow_insertLink_of_not_mem w.links k _ hfree]

/-- C1 at the failing input: the table holds `(abcdef, https://go.dev, 0)`, the POST
with `https://example.com` draws the candidate `abcdef`, its existence query returns an
error and the insert works. The POST succeeds and inserts the key `abcdef`; the request
for `/s/abcdef` that follows finds the older row first and is answered with status 302
and the `Location` that the library makes of `https://go.dev`, not of the URL that was
shortened, whatever function the library computes; both rows are counted. -/
theorem redirect_after_failed_check (location : Location) :
    handleShorten "http://localhost:3030" checksFail 1 (postShorten "https://example.com")
        sampleWorld =
      some (.served
        (.html (resultPage "https://example.com" "http://localhost:3030/s/abcdef"))
        sampleDuplicated) ∧
    sampleDuplicated.links = sampleWorld.links ++ [⟨"abcdef", "https://example.com", 0⟩] ∧
    selectRow sampleDuplicated.links "abcdef" = some ⟨"abcdef", "https://go.dev", 0⟩ ∧
    handleRedirect location redirectOk (getPath "/s/abcdef") sampleDuplicated =
      .served (.redirect (location "/s/abcdef" "https://go.dev") 302)
        { links := [⟨"abcdef", "https://go.dev", 1⟩, ⟨"abcdef", "https://example.com", 1⟩],
          rand := fun i => i + 6 } :=
  ⟨rfl, rfl, rfl, rfl⟩

/-- A target without a scheme: `example.com` is shortened on `sampleWorld` by a working
database under the key `ghijkl`; the request for `/s/ghijkl` hands `example.com` to
`http.Redirect`, and the `Location` sent is `/s/example.com`, the target resolved
against the request path, not the URL that was shortened. A target with a character
outside ASCII is sent percent-encoded, and a plain absolute target is sent as it is. -/
theorem redirect_schemeless_target :
    handleShorten "http://localhost:3030" shortenOk 2 (postShorten "example.com")
        sampleWorld =
      some (.served (.html (resultPage "example.com" "http://localhost:3030/s/ghijkl"))
        sampleSchemeless) ∧
    handleRedirect httpLocation redirectOk (getPath "/s/ghijkl") sampleSchemeless =
      .served (.redirect "/s/example.com" 302)
        { links := [⟨"abcdef", "https://go.dev", 0⟩, ⟨"ghijkl", "example.com", 1⟩],
          rand := fun i => i + 12 } ∧
    httpLocation "/s/ghijkl" "https://example.com/é" = "https://example.com/%c3%a9" ∧
    httpLocation "/s/abcdef" "https://go.dev" = "https://go.dev" :=
  ⟨rfl, rfl, rfl, rfl⟩

/-! ## Visit counting -/

theorem handleRedirect_redirect_inv (location : Location) (faults : RedirectFaults) (r : Request) (w w1 : World)
    (k url : String) (code : Nat) (hp : r.Path = "/s/" ++ k)
    (h : handleRedirect location faults r w = .served (.redirect url code) w1) :
    k ≠ "" ∧ w1 = { links := updateCount w.links k, rand := w.rand } ∧ code = 302 ∧
      ∃ row, selectRow w.links k = some row ∧ url = location r.Path row.url := by
  by_cases hk : k = ""
  · exfalso
    subst hk
    rw [handleRedirect_empty_key location faults r w hp] at h
    cases h
  · refine ⟨hk, ?_⟩
    rw [handleRedirect_key location faults r w k hp hk] at h
    by_cases hl : faults.lookup = true
    · rw [if_pos hl] at h
      cases h
    · rw [if_neg hl] at h
      cases hrow : selectRow w.links k with
      | none =>
        rw [hrow] at h
        cases h
      | some row =>
        rw [hrow] at h
        simp only at h
        by_cases hpr : faults.prepare = true
        · rw [if_pos hpr] at h
          cases h
        · rw [if_neg hpr] at h
          by_cases he : faults.exec = true
          · rw [if_pos he] at h
            cases h
          · rw [if_neg he] at h
            cases h
            exact ⟨rfl, rfl, row, rfl, rfl⟩

theorem updateCount_map_add (links : List Link) (k : String) (n : Nat) :
    (updateCount links k).map
        (fun l => if l.id = k then { l with count := l.count + n } else l) =
      links.map (fun l => if l.id = k then { l with count := l.count + (n + 1) } else l) := by
  unfold updateCount
  rw [List.map_map]
  apply List.map_congr_left
  intro l _
  simp only [Function.comp]
  by_cases hk : l.id = k
  · simp only [hk, if_true]
    congr 1
    omega
  · simp only [hk, if_false]

theorem redirectAll_links (location : Location) (calls : List (RedirectFaults × Request)) (k : String) :
    ∀ (w w1 : World), (∀ c ∈ calls, c.2.Path = "/s/" ++ k) → redirectAll location calls w = some w1 →
      w1.links = w.links.map
          (fun l => if l.id = k then { l with count := l.count + calls.length } else l) ∧
        w1.rand = w.rand := by
  induction calls with
  | nil =>
    intro w w1 _ h
    simp only [redirectAll, Option.some.injEq] at h
    subst h
    simp
  | cons c rest ih =>
    intro w w1 hp h
    simp only [redirectAll] at h
    split at h
    · rename_i url code w2 hstep
      obtain ⟨_, hw2, _, _⟩ :=
        handleRedirect_redirect_inv location c.1 c.2 w w2 k url code (hp c (List.mem_cons_self _ _)) hstep
      obtain ⟨h1, h2⟩ := ih w2 w1 (fun d hd => hp d (List.mem_cons_of_mem _ hd)) h
      subst hw2
      refine ⟨?_, h2⟩
      rw [h1, List.length_cons]
      exact updateCount_map_add w.links k rest.length
    · cases h

theorem redirectAll_some (location : Location) (calls : List (RedirectFaults × Request)) (k : String)
    (hk : k ≠ "") :
    ∀ (w : World), (∀ c ∈ calls, c.2.Path = "/s/" ++ k ∧ c.1 = redirectOk) → k ∈ ids w.links →
      ∃ w1, redirectAll location calls w = some w1 := by
  induction calls with
  | nil =>
    intro w _ _
    exact ⟨w, rfl⟩
  | cons c rest ih =>
    intro w hp hmem
    obtain ⟨hpath, hok⟩ := hp c (List.mem_cons_self _ _)
    have hrow : ∃ row, selectRow w.links k = some row := by
      cases hsel : selectRow w.links k with
      | none => exact absurd hmem ((selectRow_eq_none_iff _ _).1 hsel)
      | some row => exact ⟨row, rfl⟩
    obtain ⟨row, hrow⟩ := hrow
    have hstep : handleRedirect location c.1 c.2 w =
        .served (.redirect (location c.2.Path row.url) 302)
          { links := updateCount w.links k, rand := w.rand } := by
      rw [handleRedirect_key location c.1 c.2 w k hpath hk, hok, hrow]
      rfl
    simp only [redirectAll, hstep]
    apply ih
    · intro d hd
      exact hp d (List.mem_cons_of_mem _ hd)
    · simp only [ids_updateCount]
      exact hmem

/-- C6: `n` requests for `/s/k` handled one after another, each answered with a redirect.
Afterwards the table is the old one with `n` added to the count of every row whose id is
`k` and nothing else changed: a row `(k, u, c)` has become `(k, u, c + n)`, rows with
another id are as they were. On a working database and a table that holds the non-empty
key `k`, all `n` requests are answered with a redirect. -/
theorem redirect_counts (location : Location) (calls : List (RedirectFaults × Request)) (k : String) (w : World)
    (hpath : ∀ c ∈ calls, c.2.Path = "/s/" ++ k) :
    (k ≠ "" → k ∈ ids w.links → (∀ c ∈ calls, c.1 = redirectOk) →
      ∃ w1, redirectAll location calls w = some w1) ∧
    (∀ w1, redirectAll location calls w = some w1 →
      w1.links = w.links.map
          (fun l => if l.id = k then { l with count := l.count + calls.length } else l) ∧
      (∀ u c, (⟨k, u, c⟩ : Link) ∈ w.links → (⟨k, u, c + calls.length⟩ : Link) ∈ w1.links) ∧
      (∀ l ∈ w.links, l.id ≠ k → l ∈ w1.links) ∧
      (∀ l ∈ w1.links, l.id ≠ k → l ∈ w.links) ∧
      ids w1.links = ids w.links) := by
  constructor
  · intro hk hmem hok
    exact redirectAll_some location calls k hk w (fun c hc => ⟨hpath c hc, hok c hc⟩) hmem
  · intro w1 h
    obtain ⟨hl, _⟩ := redirectAll_links location calls k w w1 hpath h
    refine ⟨hl, ?_, ?_, ?_, ?_⟩
    · intro u c hmem
      rw [hl, List.mem_map]
      exact ⟨⟨k, u, c⟩, hmem, by simp⟩
    · intro l hmem hne
      rw [hl, List.mem_map]
      exact ⟨l, hmem, by simp [hne]⟩
    · intro l hmem hne
      rw [hl, List.mem_map] at hmem
      obtain ⟨l0, hl0, heq⟩ := hmem
      by_cases h0 : l0.id = k
      · rw [if_pos h0] at heq
        subst heq
        exact absurd h0 hne
      · rw [if_neg h0] at heq
        subst heq
        exact hl0
    · rw [hl]
      unfold ids
      rw [List.map_map]
      apply List.map_congr_left
      intro l _
      simp only [Function.comp]
      split <;> rfl

/-- C6 on `sampleWorld`: two requests for `/s/abcdef` take the count from 0 to 2. -/
theorem redirect_counts_witness :
    redirectAll plainLocation [(redirectOk, getPath "/s/abcdef"), (redirectOk, getPath "/s/abcdef")]
        sampleWorld = some sampleVisited ∧
    sampleVisited.links = sampleWorld.links.map
      (fun l => if l.id = "abcdef" then { l with count := l.count + 2 } else l) :=
  ⟨rfl, ((redirect_counts plainLocation
    [(redirectOk, getPath "/s/abcdef"), (redirectOk, getPath "/s/abcdef")]
    "abcdef" sampleWorld (by decide)).2 sampleVisited rfl).1⟩

/-! ## Database errors in `handleShorten` -/

theorem uniqueKeyLoop_discards (links : List Link) (i : Nat) :
    ∀ (check : Nat → Bool) (g : Rand), check i = true →
      (∀ j, j < i → check j = false ∧ nthCandidate j g ∈ ids links) →
      ∃ g1, ∀ fuel, i + 1 ≤ fuel →
        uniqueKeyLoop links fuel check (generateShortKey g).1 (generateShortKey g).2
          = some (nthCandidate i g, g1) := by
  induction i with
  | zero =>
    intro check g hc _
    refine ⟨(generateShortKey g).2, ?_⟩
    intro fuel hfuel
    obtain ⟨d, rfl⟩ := Nat.exists_eq_add_of_le hfuel
    rw [Nat.add_comm 0 1, Nat.add_comm 1 d]
    exact uniqueKeyLoop_check_fails links d check _ _ hc
  | succ i ih =>
    intro check g hc hbefore
    obtain ⟨g1, hg1⟩ := ih (fun j => check (j + 1)) (generateShortKey g).2 hc
      (fun j hj => hbefore (j + 1) (Nat.succ_lt_succ hj))
    refine ⟨g1, ?_⟩
    intro fuel hfuel
    obtain ⟨d, rfl⟩ := Nat.exists_eq_add_of_le hfuel
    have h0 := hbefore 0 (Nat.succ_pos i)
    have hcond : ¬ (check 0 = true ∨ selectCount links (generateShortKey g).1 = 0) := by
      rintro (h | h)
      · rw [h0.1] at h
        cases h
      · exact (selectCount_eq_zero_iff _ _).1 h h0.2
    have hsplit : i + 1 + 1 + d = (i + 1 + d) + 1 := by omega
    rw [hsplit, uniqueKeyLoop_succ, if_neg hcond]
    exact hg1 (i + 1 + d) (by omega)

/-- What `handleShorten` does with database errors on a POST with a non-empty URL. If
the `Prepare` of the insert or the insert itself fails, every outcome of the handler is
the fatal exit with the table as it was and without a page, and with a free `n`-th
candidate that exit is reached for every fuel above `n`. An error of the existence query
does not reach `log.Fatal`: when the query of iteration `i` fails (the earlier ones
having found their candidates taken), the loop is left with the `i`-th candidate as the
key, and with a working insert the row is written and the result page is served. -/
theorem handleShorten_database_errors (website : String) (faults : ShortenFaults)
    (r : Request) (w : World) (hm : r.Method = MethodPost) (hne : r.FormValue "url" ≠ "") :
    ((faults.prepare = true ∨ faults.exec = true) →
      (∀ fuel o, handleShorten website faults fuel r w = some o →
        ∃ g, o = .fatal { links := w.links, rand := g }) ∧
      (∀ n, nthCandidate n w.rand ∉ ids w.links →
        ∃ g, ∀ fuel, n + 1 ≤ fuel →
          handleShorten website faults fuel r w = some (.fatal { links := w.links, rand := g }))) ∧
    (∀ i, faults.check i = true →
      (∀ j, j < i → faults.check j = false ∧ nthCandidate j w.rand ∈ ids w.links) →
      faults.prepare = false → faults.exec = false →
      ∃ g, ∀ fuel, i + 1 ≤ fuel →
        handleShorten website faults fuel r w =
          some (.served
            (.html (resultPage (r.FormValue "url") (website ++ "/s/" ++ nthCandidate i w.rand)))
            { links := w.links ++ [⟨nthCandidate i w.rand, r.FormValue "url", 0⟩],
              rand := g })) := by
  constructor
  · intro hfail
    have hfatal : ∀ (k : String) (g : Rand),
        (if faults.prepare = true then some (Outcome.fatal { links := w.links, rand := g })
          else if faults.exec = true then some (Outcome.fatal { links := w.links, rand := g })
          else some (Outcome.served
            (.html (resultPage (r.FormValue "url") (shortenedURL website k)))
            { links := insertLink w.links k (r.FormValue "url"), rand := g })) =
        some (Outcome.fatal { links := w.links, rand := g }) := by
      intro k g
      by_cases hp : faults.prepare = true
      · rw [if_pos hp]
      · rw [if_neg hp]
        rcases hfail with h | h
        · exact absurd h hp
        · rw [if_pos h]
    constructor
    · intro fuel o h
      rw [handleShorten_post website faults fuel r w hm hne] at h
      split at h
      · cases h
      · rename_i k g _
        rw [hfatal k g] at h
        cases h
        exact ⟨g, rfl⟩
    · intro n hn
      obtain ⟨⟨k, g⟩, hres⟩ := uniqueKeyLoop_ends w.links n faults.check w.rand
        ((selectCount_eq_zero_iff _ _).2 hn)
      refine ⟨g, ?_⟩
      intro fuel hfuel
      obtain ⟨d, rfl⟩ := Nat.exists_eq_add_of_le hfuel
      rw [handleShorten_post website faults _ r w hm hne,
        uniqueKeyLoop_mono w.links (n + 1) _ _ _ _ hres d]
      exact hfatal k g
  · intro i hi hbefore hp he
    obtain ⟨g, hg⟩ := uniqueKeyLoop_discards w.links i faults.check w.rand hi hbefore
    refine ⟨g, ?_⟩
    intro fuel hfuel
    rw [handleShorten_post website faults fuel r w hm hne, hg fuel hfuel]
    simp only [hp, he, Bool.false_eq_true, if_false]
    rfl

/-- C9 at the failing input: a POST with the non-empty URL `https://example.com` on a
table that holds the key `abcdef`, the first candidate being `abcdef`; the existence
query returns an error, `Prepare` and `Exec` succeed. The process does not end: the
handler serves the result page and inserts a row, a second one under the id `abcdef`. -/
theorem handleShorten_check_error_served :
    (postShorten "https://example.com").Method = MethodPost ∧
    (postShorten "https://example.com").FormValue "url" = "https://example.com" ∧
    checksFail.check 0 = true ∧
    handleShorten "http://localhost:3030" checksFail 1 (postShorten "https://example.com")
        sampleWorld =
      some (.served
        (.html (resultPage "https://example.com" "http://localhost:3030/s/abcdef"))
        { links := [⟨"abcdef", "https://go.dev", 0⟩, ⟨"abcdef", "https://example.com", 0⟩],
          rand := fun i => i + 6 }) :=
  ⟨rfl, rfl, rfl, rfl⟩

/-! ## Uniqueness of ids -/

theorem handleShorten_world (website : String) (faults : ShortenFaults) (fuel : Nat)
    (r : Request) (w : World) (o : Outcome)
    (h : handleShorten website faults fuel r w = some o) :
    o.world.links = w.links ∨
      ∃ k g, uniqueKeyLoop w.links fuel faults.check (generateShortKey w.rand).1
          (generateShortKey w.rand).2 = some (k, g) ∧
        o.world.links = insertLink w.links k (r.FormValue "url") := by
  by_cases hm : r.Method = MethodPost
  · by_cases hu : r.FormValue "url" = ""
    · rw [handleShorten_no_url website faults fuel r w hm hu] at h
      cases h
      exact Or.inl rfl
    · rw [handleShorten_post website faults fuel r w hm hu] at h
      split at h
      · cases h
      · rename_i k g hloop
        by_cases hp : faults.prepare = true
        · rw [if_pos hp] at h
          cases h
          exact Or.inl rfl
        · rw [if_neg hp] at h
          by_cases he : faults.exec = true
          · rw [if_pos he] at h
            cases h
            exact Or.inl rfl
          · rw [if_neg he] at h
            cases h
            exact Or.inr ⟨k, g, hloop, rfl⟩
  · rw [handleShorten_not_post website faults fuel r w hm] at h
    cases h
    exact Or.inl rfl

theorem handleRedirect_ids (location : Location) (faults : RedirectFaults) (r : Request) (w : World) :
    ids (handleRedirect location faults r w).world.links = ids w.links := by
  unfold handleRedirect
  simp only
  split
  · rfl
  · split
    · rfl
    · split
      · rfl
      · split
        · rfl
        · split
          · rfl
          · exact ids_updateCount _ _

theorem handleForm_world (location : Location) (r : Request) (w : World) : (handleForm location r w).world = w := by
  unfold handleForm
  split <;> rfl

theorem nodup_ids_insertLink (links : List Link) (key url : String)
    (hinv : (ids links).Nodup) (hfree : key ∉ ids links) :
    (ids (insertLink links key url)).Nodup := by
  rw [ids_insertLink, List.nodup_append]
  refine ⟨hinv, List.nodup_singleton key, ?_⟩
  intro a ha hb
  rw [List.mem_singleton] at hb
  subst hb
  exact hfree ha

/-- C10: the table is a list of rows and enforces nothing. If no two rows share an id
before a form, shorten or redirect request whose database calls all succeed, then no two
rows share an id after it. A shorten request leaves the table as it was or appends one
row, and the key of that row is one for which the existence query counted 0 rows,
whatever the number of candidates tried before. -/
theorem ids_nodup_preserved (location : Location) (op : Op) (w : World) (o : Outcome)
    (hdb : op.queriesSucceed) (hinv : (ids w.links).Nodup) (h : op.run location w = some o) :
    (ids o.world.links).Nodup ∧
    (∀ website faults fuel r, op = .shorten website faults fuel r →
      o.world.links = w.links ∨
        ∃ k, selectCount w.links k = 0 ∧
          o.world.links = w.links ++ [⟨k, r.FormValue "url", 0⟩]) := by
  cases op with
  | form r =>
    simp only [Op.run, Option.some.injEq] at h
    subst h
    rw [handleForm_world]
    exact ⟨hinv, fun _ _ _ _ hop => by cases hop⟩
  | redirect faults r =>
    simp only [Op.run, Option.some.injEq] at h
    subst h
    rw [handleRedirect_ids]
    exact ⟨hinv, fun _ _ _ _ hop => by cases hop⟩
  | shorten website faults fuel r =>
    simp only [Op.run] at h
    have hcheck : ∀ i, faults.check i = false := hdb.1
    rcases handleShorten_world website faults fuel r w o h with hw | ⟨k, g, hloop, hw⟩
    · refine ⟨by rw [hw]; exact hinv, ?_⟩
      intro _ _ _ _ _
      exact Or.inl hw
    · have hzero : selectCount w.links k = 0 :=
        uniqueKeyLoop_free _ _ _ _ _ _ hcheck hloop
      refine ⟨?_, ?_⟩
      · rw [hw]
        exact nodup_ids_insertLink _ _ _ hinv ((selectCount_eq_zero_iff _ _).1 hzero)
      · intro website2 faults2 fuel2 r2 hop
        cases hop
        exact Or.inr ⟨k, hzero, hw⟩

/-- C10 on `sampleWorld`: the shorten request meets the taken candidate `abcdef`, tries
again, and the table afterwards holds two different ids. -/
theorem ids_nodup_preserved_witness :
    (Op.shorten "http://localhost:3030" shortenOk 2 (postShorten "https://example.com")).run
        plainLocation sampleWorld =
      some (.served
        (.html (resultPage "https://example.com" "http://localhost:3030/s/ghijkl"))
        sampleShortened) ∧
    (ids sampleWorld.links).Nodup ∧
    (ids sampleShortened.links).Nodup :=
  ⟨rfl, by decide,
    (ids_nodup_preserved plainLocation
      (Op.shorten "http://localhost:3030" shortenOk 2 (postShorten "https://example.com"))
      sampleWorld
      (.served (.html (resultPage "https://example.com" "http://localhost:3030/s/ghijkl"))
        sampleShortened)
      ⟨fun _ => rfl, rfl, rfl⟩ (by decide) rfl).1⟩

/-! ## The key generator: the claim -/

/-- C4: `generateShortKey` returns a string of length 6 whose `i`-th character is the
charset character at the index the `i`-th `rand.Intn` call returned, and it uses exactly
six draws. The charset has 62 pairwise distinct characters: 26 lowercase letters, 26
uppercase letters and 10 digits. The map from the sequences of six indices below 62 to
keys is injective and its values are exactly the six-character alphanumeric strings, so
every such string is the key of exactly one of the equally likely index sequences. -/
theorem generateShortKey_spec :
    (∀ g : Rand,
      (generateShortKey g).1.length = 6 ∧
      (∀ i, i < 6 → drawnIndex g i < 62 ∧
        (generateShortKey g).1.data[i]? = charset.data[drawnIndex g i]?) ∧
      (generateShortKey g).2 = fun i => g (i + 6)) ∧
    (∀ (g : Rand) (idx : Fin 6 → Fin 62), (∀ i : Fin 6, drawnIndex g i = idx i) →
      (generateShortKey g).1 = keyOfIndices idx) ∧
    (∀ (idx : Fin 6 → Fin 62) (i : Fin 6),
      (keyOfIndices idx).length = 6 ∧
      (keyOfIndices idx).data[i.val]? = charset.data[(idx i).val]?) ∧
    (charset.length = 62 ∧ charset.data.Nodup ∧
      (charset.data.filter Char.isLower).length = 26 ∧
      (charset.data.filter Char.isUpper).length = 26 ∧
      (charset.data.filter Char.isDigit).length = 10) ∧
    Function.Injective keyOfIndices ∧
    (∀ s, IsShortKey s ↔ ∃ idx, keyOfIndices idx = s) ∧
    (∀ s, IsShortKey s →
      (Finset.univ.filter (fun idx : Fin 6 → Fin 62 => keyOfIndices idx = s)).card = 1) ∧
    Fintype.card (Fin 6 → Fin 62) = 62 ^ 6 := by
  refine ⟨?_, generateShortKey_eq_keyOfIndices, ?_, ?_, keyOfIndices_injective,
    isShortKey_iff_exists_indices, card_indices_of_key, ?_⟩
  · intro g
    refine ⟨(generateShortKey_isShortKey g).1, ?_, ?_⟩
    · intro i hi
      have hlt : drawnIndex g i < 62 := by
        simp only [drawnIndex, Intn, charset_length]
        exact Nat.mod_lt _ (by decide)
      refine ⟨hlt, ?_⟩
      have hlen : drawnIndex g i < charset.data.length := by
        rw [charset_data_length]
        exact hlt
      rw [List.getElem?_eq_getElem hlen, ← charsetAt_eq_getElem _ hlen, generateShortKey_eq]
      simp only [drawnIndex, Intn, charset_length, Nat.zero_add]
      interval_cases i <;> rfl
    · rw [generateShortKey_eq]
  · intro idx i
    exact ⟨(generateShortKey_isShortKey _).1, keyOfIndices_getElem? idx i⟩
  · exact ⟨charset_length, charset_nodup, by decide, by decide, by decide⟩
  · rw [Fintype.card_fun, Fintype.card_fin, Fintype.card_fin]

/-- C4 on the source whose draws are 0, 1, 2, ...: the key is the one of the indices
0 to 5, `abcdef`. -/
theorem generateShortKey_spec_witness :
    (generateShortKey (fun i => i)).1 = keyOfIndices (fun i => ⟨i.val, by omega⟩) ∧
    (generateShortKey (fun i => i)).1 = "abcdef" :=
  ⟨generateShortKey_spec.2.1 (fun i => i) (fun i => ⟨i.val, by omega⟩) (fun i => by
    fin_cases i <;> rfl), by decide⟩

end UrlShortener
